import Mathlib

/-!
Verification development for the `gatsby-source-kontent-rs` projection engine
(`src/plugins/gatsby-source-kontent-rs/gatsby-node.js`).

The JavaScript source is shallowly embedded: JS values are modelled by the
inductive `JVal` (JSON values plus `undefined`), JS objects by ordered
association lists with string keys, and each source function by a Lean
function of the same name.  The external `change-case` library (pascalCase,
camelCase, paramCase) and lodash's `unionBy` are modelled from their
documented behaviour, since only their call sites live in this repository.
-/

/-- Word splitter used by the change-case library: inserts a space at a
lower-or-digit to upper boundary and before the last upper of an
uppercase run followed by a lowercase letter. -/
def splitCamel : List Char → List Char
  | [] => []
  | [a] => [a]
  | a :: b :: rest =>
    if (a.isLower || a.isDigit) && b.isUpper then
      a :: ' ' :: splitCamel (b :: rest)
    else
      match rest with
      | c :: _ =>
        if a.isUpper && b.isUpper && c.isLower then
          a :: ' ' :: splitCamel (b :: rest)
        else
          a :: splitCamel (b :: rest)
      | [] => a :: splitCamel (b :: rest)

/-- Split a character list into maximal alphanumeric words, treating every
non-alphanumeric character as a separator. -/
def wordsAux : List Char → List Char → List (List Char)
  | [], cur => if cur.isEmpty then [] else [cur.reverse]
  | c :: cs, cur =>
    if c.isAlphanum then wordsAux cs (c :: cur)
    else if cur.isEmpty then wordsAux cs cur
    else cur.reverse :: wordsAux cs []

/-- The words of a codename, as the change-case library determines them. -/
def toWords (s : String) : List (List Char) :=
  wordsAux (splitCamel s.data) []

/-- Uppercase the first character of a word and lowercase the rest. -/
def capitalizeWord : List Char → List Char
  | [] => []
  | c :: cs => c.toUpper :: cs.map Char.toLower

/-- Lowercase a whole word. -/
def lowerWord (w : List Char) : List Char :=
  w.map Char.toLower

/-- Model of change-case `pascalCase` (external dependency of the source). -/
def pascalCase (s : String) : String :=
  String.mk ((toWords s).map capitalizeWord).flatten

/-- Model of change-case `camelCase` (external dependency of the source). -/
def camelCase (s : String) : String :=
  match toWords s with
  | [] => ""
  | w :: ws => String.mk (lowerWord w ++ (ws.map capitalizeWord).flatten)

/-- Model of change-case `paramCase` (kebab-case; external dependency of
the source). -/
def paramCase (s : String) : String :=
  String.mk (List.intercalate ['-'] ((toWords s).map lowerWord))

/-- JavaScript runtime values as the source manipulates them: the JSON
values plus `undefined`.  An object is an insertion-ordered association
list with string keys. -/
inductive JVal where
  | null
  | undefined
  | bool (b : Bool)
  | num (n : Int)
  | str (s : String)
  | arr (elems : List JVal)
  | obj (fields : List (String × JVal))
deriving Repr

/-- JS property access `v[k]`: field lookup on objects, `undefined` on a
missing field and on every non-object. -/
def JVal.get : JVal → String → JVal
  | .obj fs, k =>
    match fs.find? (fun p => p.1 == k) with
    | some p => p.2
    | none => .undefined
  | _, _ => .undefined

/-- JS truthiness. -/
def JVal.truthy : JVal → Bool
  | .null => false
  | .undefined => false
  | .bool b => b
  | .num n => !(n == 0)
  | .str s => !(s == "")
  | .arr _ => true
  | .obj _ => true

/-- `Object.keys`, in insertion order. -/
def JVal.keys : JVal → List String
  | .obj fs => fs.map Prod.fst
  | _ => []

/-- JS `delete v[k]` applied to an object value (the result of the delete). -/
def removeField : JVal → String → JVal
  | .obj fs, k => .obj (fs.filter (fun p => !(p.1 == k)))
  | v, _ => v

/-- JS `Object.assign(acc, \x7b[k]: v\x7d)` on an association list:
overwrite an existing key in place, otherwise append. -/
def setField {α : Type} (fs : List (String × α)) (k : String) (v : α) : List (String × α) :=
  if fs.any (fun p => p.1 == k) then
    fs.map (fun p => if p.1 == k then (p.1, v) else p)
  else
    fs ++ [(k, v)]

/-- JS template-literal string coercion, exact on primitive values (the
only ones the source feeds it under its contracts); arrays and objects are
approximated by their degenerate JS renderings. -/
def jstr : JVal → String
  | .str s => s
  | .null => "null"
  | .undefined => "undefined"
  | .bool b => if b then "true" else "false"
  | .num n => toString n
  | .arr _ => ""
  | .obj _ => "[object Object]"

/-- Whether a value is JS `undefined`. -/
def isUndefined : JVal → Bool
  | .undefined => true
  | _ => false

mutual
/-- `JSON.parse(JSON.stringify(v))`: object fields whose value serializes
to `undefined` are dropped, array entries that serialize to `undefined`
become `null`. -/
def jsonRT : JVal → JVal
  | .undefined => .undefined
  | .null => .null
  | .bool b => .bool b
  | .num n => .num n
  | .str s => .str s
  | .arr xs => .arr (jsonRTArr xs)
  | .obj fs => .obj (jsonRTObj fs)

/-- Round trip of the entries of a JS array. -/
def jsonRTArr : List JVal → List JVal
  | [] => []
  | x :: xs => (if isUndefined (jsonRT x) then .null else jsonRT x) :: jsonRTArr xs

/-- Round trip of the fields of a JS object. -/
def jsonRTObj : List (String × JVal) → List (String × JVal)
  | [] => []
  | (k, v) :: fs =>
    if isUndefined (jsonRT v) then jsonRTObj fs else (k, jsonRT v) :: jsonRTObj fs
end

mutual
/-- A value free of `undefined`, i.e. representable in JSON. -/
def noUndefined : JVal → Bool
  | .undefined => false
  | .null => true
  | .bool _ => true
  | .num _ => true
  | .str _ => true
  | .arr xs => noUndefinedArr xs
  | .obj fs => noUndefinedObj fs

/-- All entries of an array are JSON-representable. -/
def noUndefinedArr : List JVal → Bool
  | [] => true
  | x :: xs => noUndefined x && noUndefinedArr xs

/-- All field values of an object are JSON-representable. -/
def noUndefinedObj : List (String × JVal) → Bool
  | [] => true
  | (_, v) :: fs => noUndefined v && noUndefinedObj fs
end

mutual
/-- Structural (JS deep) equality test on `JVal`. -/
def JVal.beq : JVal → JVal → Bool
  | .null, .null => true
  | .undefined, .undefined => true
  | .bool a, .bool b => a == b
  | .num a, .num b => a == b
  | .str a, .str b => a == b
  | .arr xs, .arr ys => beqArr xs ys
  | .obj fs, .obj gs => beqObj fs gs
  | _, _ => false

/-- Pointwise equality test on arrays. -/
def beqArr : List JVal → List JVal → Bool
  | [], [] => true
  | x :: xs, y :: ys => JVal.beq x y && beqArr xs ys
  | _, _ => false

/-- Pointwise equality test on object field lists. -/
def beqObj : List (String × JVal) → List (String × JVal) → Bool
  | [], [] => true
  | (k, v) :: fs, (l, w) :: gs => k == l && JVal.beq v w && beqObj fs gs
  | _, _ => false
end

/-- `getElementValueType` (gatsby-node.js): GraphQL value type name for an
element kind; total over arbitrary kind strings. -/
def getElementValueType (elementType : String) : String :=
  "Kontent" ++ pascalCase elementType ++ "Element"

/-- `getGraphFieldName` (gatsby-node.js): transformed field name. -/
def getGraphFieldName (elementName : String) : String :=
  camelCase elementName

/-- `getGraphTypeName` (gatsby-node.js): fully qualified GraphQL type name. -/
def getGraphTypeName (typeName : String) : String :=
  "KontentItem" ++ pascalCase typeName

/-- `getNodeIdValue` (gatsby-node.js): the Gatsby node identity key,
built from the item's system record. -/
def getNodeIdValue (item : JVal) : String :=
  paramCase (jstr ((item.get "system").get "type")) ++ "-" ++ jstr ((item.get "system").get "id")

/-- JS strict string comparison `v.type === t`. -/
def isType (v : JVal) (t : String) : Bool :=
  match v.get "type" with
  | .str s => s == t
  | _ => false

/-- The per-element transform of `createItemNode` (gatsby-node.js lines
191-213): modular content keeps name/type/item codenames, rich text keeps
images/linked item codenames/links/name/type/value, every other kind is
passed through; in all branches the `rawData` field is deleted from the
resulting field value. -/
def normalizeElementValue (ev : JVal) : JVal :=
  removeField
    (if isType ev "modular_content" then
      .obj [("name", ev.get "name"), ("type", ev.get "type"),
            ("value", ev.get "itemCodenames")]
    else if isType ev "rich_text" then
      .obj [("images", ev.get "images"), ("linkedItems", ev.get "linkedItemCodenames"),
            ("links", ev.get "links"), ("name", ev.get "name"),
            ("type", ev.get "type"), ("value", ev.get "value")]
    else ev)
    "rawData"

/-- The key filter of `createItemNode` (gatsby-node.js lines 180-182):
all keys of the item whose property is truthy and has a truthy `type`
property. -/
def elementPropertyKeys (item : JVal) : List String :=
  item.keys.filter (fun k => (item.get k).truthy && ((item.get k).get "type").truthy)

/-- The `elements` object built by the reduce of `createItemNode`
(gatsby-node.js lines 185-216). -/
def elementsObj (item : JVal) : JVal :=
  .obj ((elementPropertyKeys item).foldl
    (fun acc k => setField acc (getGraphFieldName k) (normalizeElementValue (item.get k)))
    [])

/-- Effect of `delete fieldValue.rawData` on the input's element object:
for modular content and rich text a fresh object is built, so the input is
untouched; for every other kind `fieldValue` aliases the input element and
the delete removes its `rawData` field. -/
def mutateElement (v : JVal) : JVal :=
  if isType v "modular_content" then v
  else if isType v "rich_text" then v
  else removeField v "rawData"

/-- The in-place effect of `createItemNode` on one property of the input
item: properties passing the element filter have their element object
mutated, all others are untouched. -/
def mutateIfElement (v : JVal) : JVal :=
  if v.truthy && (v.get "type").truthy then mutateElement v else v

/-- The input item as it stands after `createItemNode` returns: JS object
mutation applied to each element property. -/
def itemAfterCIN (item : JVal) : JVal :=
  match item with
  | .obj fs => .obj (fs.map (fun p => (p.1, mutateIfElement p.2)))
  | v => v

/-- `nodeData` of `createItemNode` (gatsby-node.js lines 218-225): the
system record (as mutated by the reduce) and the elements object,
re-serialized through `JSON.parse(JSON.stringify(...))`. -/
def nodeDataOf (item : JVal) : JVal :=
  jsonRT (.obj [("system", mutateIfElement (item.get "system")), ("elements", elementsObj item)])

/-- The field list of an object value. -/
def objFields : JVal → List (String × JVal)
  | .obj fs => fs
  | _ => []

/-- `createItemNode` (gatsby-node.js): the returned Gatsby node, with the
host's `createContentDigest` and `createNodeId` callbacks passed as
functions. -/
def createItemNode (createContentDigest : JVal → String) (createNodeId : String → String)
    (item : JVal) : JVal :=
  let nodeData := nodeDataOf item
  .obj (objFields nodeData ++
    [("id", .str (createNodeId (getNodeIdValue nodeData))),
     ("parent", .null),
     ("children", .arr []),
     ("internal", .obj
       [("type", .str (getGraphTypeName (jstr ((nodeData.get "system").get "type")))),
        ("mediaType", .str "text/html"),
        ("contentDigest", .str (createContentDigest nodeData))])])

/-- The `internal.contentDigest` field of a node. -/
def contentDigestOf (node : JVal) : JVal :=
  (node.get "internal").get "contentDigest"

/-- One element definition of a Kontent content type, as consumed by
`createTypeDef`: the SDK exposes `codename` and `type` (the element kind). -/
structure ElementDef where
  codename : String
  type : String
deriving Repr, DecidableEq

/-- The system record of a Kontent content type. -/
structure ContentTypeSys where
  codename : String
deriving Repr, DecidableEq

/-- A Kontent content type definition, as consumed by `createTypeDef`. -/
structure ContentType where
  system : ContentTypeSys
  elements : List ElementDef
deriving Repr, DecidableEq

/-- Result of `schema.buildObjectType`: a GraphQL object type declaration
with named fields (field name to field type), implemented interfaces and
the inference flag. -/
structure ObjectTypeDef where
  name : String
  fields : List (String × String)
  interfaces : List String
  infer : Bool
deriving Repr, DecidableEq

/-- `createTypeDef` (gatsby-node.js lines 248-277): the two GraphQL object
type declarations generated for one content type. -/
def createTypeDef (type : ContentType) : List ObjectTypeDef :=
  let elementFields := type.elements.foldl
    (fun acc element =>
      setField acc (getGraphFieldName element.codename) (getElementValueType element.type))
    []
  let elementsTypeDef : ObjectTypeDef :=
    { name := getGraphTypeName type.system.codename ++ "Elements"
      fields := elementFields
      interfaces := []
      infer := false }
  let typeDef : ObjectTypeDef :=
    { name := getGraphTypeName type.system.codename
      fields := [("system", "KontentItemSystem!"),
                 ("elements", getGraphTypeName type.system.codename ++ "Elements")]
      interfaces := ["Node", "KontentItem"]
      infer := false }
  [elementsTypeDef, typeDef]

/-- `createBaseTypes` (gatsby-node.js lines 60-170): the fixed SDL string
of base type declarations registered once per run. -/
def createBaseTypes : String :=
  "
    interface KontentItem @nodeInterface \x7b
      id: ID!
      system: KontentItemSystem!
    \x7d

    interface KontentElement @dontInfer \x7b
      name: String!
      type: String!
    \x7d

    type KontentItemSystem @infer \x7b
      codename: String!
      id: String!
      language: String!
      lastModified: Date! @dateformat
      name: String!
      type: String!
    \x7d

    type KontentAsset @infer \x7b
      name: String!
      description: String
      type: String!
      size: Int!
      url: String!
      width: Int!
      height: Int!
    \x7d

    type KontentAssetElement implements KontentElement @infer \x7b
      name: String!
      type: String!
      value: [KontentAsset]
    \x7d

    type KontentDateTimeElement implements KontentElement @infer \x7b
      name: String!
      type: String!
      value: Date @dateformat
    \x7d

    type KontentModularContentElement implements KontentElement @infer \x7b
      name: String!
      type: String!
      value: [KontentItem] @link(by: \"system.codename\")
    \x7d

    type KontentMultipleChoiceElement implements KontentElement @infer \x7b
      name: String!
      type: String!
    \x7d

    type KontentNumberElement implements KontentElement @infer \x7b
      name: String!
      type: String!
      value: Float
    \x7d

    type KontentRichTextElement implements KontentElement @infer \x7b
      name: String!
      type: String!
      value: String
      images: [KontentRichTextImage]
      links: [KontentRichTextLink]
      linkedItems: [KontentItem] @link(by: \"system.codename\")
    \x7d

    type KontentRichTextImage @infer \x7b
      description: String
      height: Int!
      imageId: String!
      url: String!
      width: Int!
    \x7d

    type KontentRichTextLink @infer \x7b
      codename: String!
      linkId: String!
      type: String!
      urlSlug: String!
    \x7d

    type KontentTaxonomyElement implements KontentElement @infer \x7b
      name: String!
      type: String!
      taxonomyGroup: String!
      value: [KontentTaxonomyItem]
    \x7d

    type KontentTaxonomyItem @infer \x7b
      name: String!
      codename: String!
    \x7d

    type KontentTextElement implements KontentElement @infer \x7b
      name: String!
      type: String!
      value: String
    \x7d

    type KontentUrlSlugElement implements KontentElement @infer \x7b
      name: String!
      type: String!
      value: String
    \x7d
  "

/-- lodash `unionBy` iteratee `'system.codename'`: the dedup key of an
item. -/
def itemUnionKey (it : JVal) : JVal :=
  (it.get "system").get "codename"

/-- Core of lodash `unionBy`: keep the first occurrence of each key over
the concatenated arrays, comparing keys by SameValueZero. -/
def uniqByKey (key : JVal → JVal) (seen : List JVal) : List JVal → List JVal
  | [] => []
  | x :: xs =>
    if seen.any (fun s => JVal.beq s (key x)) then uniqByKey key seen xs
    else x :: uniqByKey key (key x :: seen) xs

/-- `unionBy(response.items, response.linkedItems, 'system.codename')`
(gatsby-node.js lines 43-47). -/
def unionBySystemCodename (items linkedItems : List JVal) : List JVal :=
  uniqByKey itemUnionKey [] (items ++ linkedItems)

/-- `handleNodeCreation` (gatsby-node.js lines 39-53): the nodes handed to
`createNode`, in order. -/
def nodesCreated (createContentDigest : JVal → String) (createNodeId : String → String)
    (items linkedItems : List JVal) : List JVal :=
  (unionBySystemCodename items linkedItems).map (createItemNode createContentDigest createNodeId)

/-- A call made by `sourceNodes` against the host (Gatsby) API. -/
inductive HostCall where
  | createTypesRaw (sdl : String)
  | createTypes (defs : List ObjectTypeDef)
  | createNode (node : JVal)
deriving Repr

/-- Whether a host call registers schema types. -/
def HostCall.isCreateTypes : HostCall → Bool
  | .createTypesRaw _ => true
  | .createTypes _ => true
  | .createNode _ => false

/-- Whether a host call creates a node. -/
def HostCall.isCreateNode : HostCall → Bool
  | .createNode _ => true
  | _ => false

/-- `sourceNodes` (gatsby-node.js lines 5-54): the ordered trace of host
calls of one run.  `await handleTypeCreation()` completes (both
`createTypes` calls) before `await handleNodeCreation()` starts, so the
trace is the base registration, then the per-content-type registration,
then one `createNode` per deduplicated item. -/
def sourceNodesTrace (createContentDigest : JVal → String) (createNodeId : String → String)
    (types : List ContentType) (items linkedItems : List JVal) : List HostCall :=
  HostCall.createTypesRaw createBaseTypes ::
  HostCall.createTypes (types.foldl (fun acc type => acc ++ createTypeDef type) []) ::
  (unionBySystemCodename items linkedItems).map
    (fun it => HostCall.createNode (createItemNode createContentDigest createNodeId it))

/-- A representative Kontent item system record. -/
def testSystem : JVal :=
  .obj [("codename", .str "post_a"), ("id", .str "123"), ("language", .str "en-US"),
        ("lastModified", .str "2020-01-01T00:00:00Z"), ("name", .str "Post A"),
        ("type", .str "blog_post")]

/-- A text element without a transport field. -/
def testTitle : JVal :=
  .obj [("name", .str "Title"), ("type", .str "text"), ("value", .str "hi")]

/-- A text element still carrying its raw transport field. -/
def testTitleRaw : JVal :=
  .obj [("name", .str "Title"), ("type", .str "text"), ("value", .str "hi"),
        ("rawData", .obj [])]

/-- A representative content item. -/
def testItem : JVal := .obj [("system", testSystem), ("title", testTitle)]

/-- A content item whose text element carries a rawData transport field. -/
def rawDataItem : JVal := .obj [("system", testSystem), ("title", testTitleRaw)]

/-- A rich text element whose linkedItemCodenames property is absent. -/
def richTextNoLinked : JVal :=
  .obj [("name", .str "Body"), ("type", .str "rich_text"), ("value", .str "<p>hi</p>"),
        ("images", .arr []), ("links", .arr [])]

/-- A content item holding `richTextNoLinked`. -/
def richTextItem : JVal := .obj [("system", testSystem), ("body", richTextNoLinked)]

/-- A minimal item with the given system codename. -/
def mkTestItem (cn : String) : JVal :=
  .obj [("system", .obj [("codename", .str cn), ("id", .str cn), ("type", .str "page")])]

/-- A stand-in for the host's content digest callback. -/
def digestFn : JVal → String := fun _ => "digest"

/-- A stand-in for the host's node id callback. -/
def nodeIdFn : String → String := fun s => s

/-- A second, different stand-in for the host's node id callback. -/
def nodeIdFn2 : String → String := fun s => s ++ "-host2"

/-- The content type of the spec's end-to-end example. -/
def blogPostType : ContentType := ⟨⟨"blog_post"⟩, [⟨"title", "text"⟩]⟩

/-- A content type with an element kind outside the nine-kind catalog. -/
def unknownKindType : ContentType := ⟨⟨"article"⟩, [⟨"teaser", "new_kind_v2"⟩]⟩

/-! ### Lemmas about the JS value model -/

theorem get_obj_cons (a : String × JVal) (fs : List (String × JVal)) (k : String) :
    (JVal.obj (a :: fs)).get k = if a.1 == k then a.2 else (JVal.obj fs).get k := by
  cases h : a.1 == k <;> simp [JVal.get, List.find?_cons, h]

theorem exists_obj_of_get_ne_undefined (v : JVal) (k : String) (h : v.get k ≠ .undefined) :
    ∃ fs, v = .obj fs := by
  cases v
  case obj fs => exact ⟨fs, rfl⟩
  all_goals exact absurd rfl h

theorem exists_obj_of_get_truthy (v : JVal) (k : String) (h : (v.get k).truthy = true) :
    ∃ fs, v = .obj fs := by
  cases v
  case obj fs => exact ⟨fs, rfl⟩
  all_goals exact absurd h (by simp [JVal.get, JVal.truthy])

theorem find_filter_ne (fs : List (String × JVal)) (k k' : String) (h : k ≠ k') :
    (fs.filter (fun p => !(p.1 == k'))).find? (fun p => p.1 == k) =
      fs.find? (fun p => p.1 == k) := by
  induction fs with
  | nil => rfl
  | cons a fs ih =>
    rw [List.filter_cons]
    by_cases ha : (a.1 == k') = true
    · have hak : (a.1 == k) = false := by
        rw [beq_eq_false_iff_ne]
        have h1 : a.1 = k' := by simpa using ha
        rw [h1]
        exact Ne.symm h
      rw [if_neg (by simp [ha]), List.find?_cons, ih]
      simp [hak]
    · rw [if_pos (by simp [Bool.not_eq_true] at ha; simp [ha]), List.find?_cons, List.find?_cons, ih]

theorem get_removeField_ne (v : JVal) (k k' : String) (h : k ≠ k') :
    (removeField v k').get k = v.get k := by
  cases v <;> try rfl
  case obj fs => simp only [removeField, JVal.get, find_filter_ne fs k k' h]

theorem removeField_idem (v : JVal) (k : String) :
    removeField (removeField v k) k = removeField v k := by
  cases v <;> try rfl
  case obj fs => simp [removeField, List.filter_filter]

theorem isUndefined_eq_false (v : JVal) : isUndefined v = false ↔ v ≠ .undefined := by
  cases v <;> simp [isUndefined]

theorem jsonRT_obj_get (fs : List (String × JVal)) (k : String)
    (h : isUndefined (jsonRT ((JVal.obj fs).get k)) = false) :
    (JVal.obj (jsonRTObj fs)).get k = jsonRT ((JVal.obj fs).get k) := by
  induction fs with
  | nil => exact absurd h (by simp [JVal.get, jsonRT, isUndefined])
  | cons a fs ih =>
    obtain ⟨ka, va⟩ := a
    rw [jsonRTObj]
    by_cases hk : (ka == k) = true
    · have hget : (JVal.obj ((ka, va) :: fs)).get k = va := by rw [get_obj_cons]; simp [hk]
      rw [hget] at h ⊢
      rw [if_neg (by simp [h])]
      rw [get_obj_cons]; simp [hk]
    · have hget : (JVal.obj ((ka, va) :: fs)).get k = (JVal.obj fs).get k := by
        rw [get_obj_cons]; simp [hk]
      rw [hget] at h ⊢
      by_cases hu : isUndefined (jsonRT va) = true
      · rw [if_pos hu]; exact ih h
      · rw [if_neg hu, get_obj_cons]
        simp only [Bool.not_eq_true] at hk
        simp [hk]
        exact ih h

theorem mem_keys_jsonRTObj (fs : List (String × JVal)) (p : String × JVal)
    (hp : p ∈ jsonRTObj fs) : p.1 ∈ fs.map Prod.fst := by
  induction fs with
  | nil => simp [jsonRTObj] at hp
  | cons a fs ih =>
    obtain ⟨ka, va⟩ := a
    rw [jsonRTObj] at hp
    by_cases hu : isUndefined (jsonRT va) = true
    · rw [if_pos hu] at hp
      simp only [List.map_cons, List.mem_cons]
      exact .inr (ih hp)
    · rw [if_neg hu] at hp
      rcases List.mem_cons.mp hp with hh | hh
      · subst hh; simp
      · simp only [List.map_cons, List.mem_cons]
        exact .inr (ih hh)

theorem get_obj_append (l1 l2 : List (String × JVal)) (k : String)
    (h : ∀ p ∈ l1, p.1 ≠ k) :
    (JVal.obj (l1 ++ l2)).get k = (JVal.obj l2).get k := by
  have hn : l1.find? (fun p => p.1 == k) = none := by
    rw [List.find?_eq_none]
    intro p hp
    simp [h p hp]
  simp [JVal.get, List.find?_append, hn]


mutual
theorem jsonRT_noUndefined : ∀ v : JVal, jsonRT v = .undefined ∨ noUndefined (jsonRT v) = true
  | .undefined => .inl rfl
  | .null => .inr rfl
  | .bool _ => .inr rfl
  | .num _ => .inr rfl
  | .str _ => .inr rfl
  | .arr xs => .inr (by simpa [jsonRT, noUndefined] using jsonRTArr_noUndefined xs)
  | .obj fs => .inr (by simpa [jsonRT, noUndefined] using jsonRTObj_noUndefined fs)

theorem jsonRTArr_noUndefined : ∀ xs : List JVal, noUndefinedArr (jsonRTArr xs) = true
  | [] => rfl
  | x :: xs => by
    rw [jsonRTArr]
    by_cases hu : isUndefined (jsonRT x) = true
    · rw [if_pos hu]
      simp [noUndefinedArr, noUndefined, jsonRTArr_noUndefined xs]
    · rw [if_neg hu]
      rcases jsonRT_noUndefined x with h | h
      · rw [h] at hu; exact absurd rfl hu
      · simp [noUndefinedArr, h, jsonRTArr_noUndefined xs]

theorem jsonRTObj_noUndefined : ∀ fs : List (String × JVal), noUndefinedObj (jsonRTObj fs) = true
  | [] => rfl
  | (k, v) :: fs => by
    rw [jsonRTObj]
    by_cases hu : isUndefined (jsonRT v) = true
    · rw [if_pos hu]
      exact jsonRTObj_noUndefined fs
    · rw [if_neg hu]
      rcases jsonRT_noUndefined v with h | h
      · rw [h] at hu; exact absurd rfl hu
      · simp [noUndefinedObj, h, jsonRTObj_noUndefined fs]
end

theorem setField_of_not_mem {α : Type} (fs : List (String × α)) (k : String) (v : α)
    (h : k ∉ fs.map Prod.fst) : setField fs k v = fs ++ [(k, v)] := by
  have ha : fs.any (fun p => p.1 == k) = false := by
    rw [List.any_eq_false]
    intro p hp hpk
    exact h (List.mem_map.mpr ⟨p, hp, by simpa using hpk⟩)
  simp [setField, ha]

theorem foldl_setField {α β : Type} (f : β → String) (g : β → α) :
    ∀ (l : List β) (acc : List (String × α)),
      (acc.map Prod.fst ++ l.map f).Nodup →
      l.foldl (fun a b => setField a (f b) (g b)) acc = acc ++ l.map (fun b => (f b, g b))
  | [], acc, _ => by simp
  | b :: l, acc, h => by
    rw [List.foldl_cons]
    have hnm : f b ∉ acc.map Prod.fst := by
      rw [List.nodup_append] at h
      intro hmem
      exact (h.2.2 hmem) (List.mem_cons_self _ _)
    rw [setField_of_not_mem _ _ _ hnm]
    have h' : ((acc ++ [(f b, g b)]).map Prod.fst ++ l.map f).Nodup := by
      simpa [List.append_assoc] using h
    rw [foldl_setField f g l _ h']
    simp

theorem keys_itemAfterCIN (item : JVal) : (itemAfterCIN item).keys = item.keys := by
  cases item <;> simp [itemAfterCIN, JVal.keys]

theorem get_itemAfterCIN (item : JVal) (k : String) :
    (itemAfterCIN item).get k = mutateIfElement (item.get k) := by
  cases item
  case obj fs =>
    show (JVal.obj (fs.map fun p => (p.1, mutateIfElement p.2))).get k = _
    simp only [JVal.get]
    rw [List.find?_map]
    have hc : ((fun p : String × JVal => p.1 == k) ∘ fun p : String × JVal =>
        (p.1, mutateIfElement p.2)) = fun p : String × JVal => p.1 == k := rfl
    rw [hc]
    cases h : fs.find? (fun p => p.1 == k) <;>
      simp [mutateIfElement, JVal.truthy]
  all_goals simp [itemAfterCIN, JVal.get, mutateIfElement, JVal.truthy]

theorem isType_removeField_rawData (v : JVal) (t : String) :
    isType (removeField v "rawData") t = isType v t := by
  rw [isType, isType, get_removeField_ne v "type" "rawData" (by decide)]

theorem get_mutateElement_ne (v : JVal) (k : String) (h : k ≠ "rawData") :
    (mutateElement v).get k = v.get k := by
  rw [mutateElement]
  split_ifs
  · rfl
  · rfl
  · exact get_removeField_ne v k "rawData" h

theorem get_mutateIfElement_ne (v : JVal) (k : String) (h : k ≠ "rawData") :
    (mutateIfElement v).get k = v.get k := by
  rw [mutateIfElement]
  split_ifs with h1
  · exact get_mutateElement_ne v k h
  · rfl

theorem truthy_mutateIfElement (v : JVal) : (mutateIfElement v).truthy = v.truthy := by
  rw [mutateIfElement]
  split_ifs with h1
  · rw [mutateElement]
    split_ifs
    · rfl
    · rfl
    · obtain ⟨fs, rfl⟩ := exists_obj_of_get_truthy v "type" (Bool.and_elim_right h1)
      rfl
  · rfl

theorem truthy_mutateElement (v : JVal) (h : (v.get "type").truthy = true) :
    (mutateElement v).truthy = v.truthy := by
  by_cases h1 : isType v "modular_content" = true
  · rw [show mutateElement v = v from by rw [mutateElement, if_pos h1]]
  · by_cases h2 : isType v "rich_text" = true
    · rw [show mutateElement v = v from by rw [mutateElement, if_neg h1, if_pos h2]]
    · have hv : mutateElement v = removeField v "rawData" := by
        rw [mutateElement, if_neg h1, if_neg h2]
      obtain ⟨fs, rfl⟩ := exists_obj_of_get_truthy v "type" h
      rw [hv]
      rfl

theorem mutateElement_idem (v : JVal) : mutateElement (mutateElement v) = mutateElement v := by
  by_cases h1 : isType v "modular_content" = true
  · have hm : mutateElement v = v := by rw [mutateElement, if_pos h1]
    rw [hm, hm]
  · by_cases h2 : isType v "rich_text" = true
    · have hm : mutateElement v = v := by rw [mutateElement, if_neg h1, if_pos h2]
      rw [hm, hm]
    · have hv : mutateElement v = removeField v "rawData" := by
        rw [mutateElement, if_neg h1, if_neg h2]
      rw [hv, mutateElement,
          if_neg (by rw [isType_removeField_rawData]; exact h1),
          if_neg (by rw [isType_removeField_rawData]; exact h2)]
      exact removeField_idem v "rawData"

theorem mutateIfElement_idem (v : JVal) :
    mutateIfElement (mutateIfElement v) = mutateIfElement v := by
  by_cases h1 : (v.truthy && (v.get "type").truthy) = true
  · have hm : mutateIfElement v = mutateElement v := by rw [mutateIfElement, if_pos h1]
    have ht : (v.get "type").truthy = true := by
      simp only [Bool.and_eq_true] at h1
      exact h1.2
    rw [hm, mutateIfElement]
    rw [if_pos (by
      rw [truthy_mutateElement v ht, get_mutateElement_ne v "type" (by decide)]
      exact h1)]
    exact mutateElement_idem v
  · have hm : mutateIfElement v = v := by rw [mutateIfElement, if_neg h1]
    rw [hm, hm]

theorem normalize_mutateElement (v : JVal) :
    normalizeElementValue (mutateElement v) = normalizeElementValue v := by
  by_cases h1 : isType v "modular_content" = true
  · rw [show mutateElement v = v from by rw [mutateElement, if_pos h1]]
  · by_cases h2 : isType v "rich_text" = true
    · rw [show mutateElement v = v from by rw [mutateElement, if_neg h1, if_pos h2]]
    · have hv : mutateElement v = removeField v "rawData" := by
        rw [mutateElement, if_neg h1, if_neg h2]
      rw [hv, normalizeElementValue, normalizeElementValue,
          if_neg (by rw [isType_removeField_rawData]; exact h1),
          if_neg (by rw [isType_removeField_rawData]; exact h2),
          if_neg h1, if_neg h2]
      exact removeField_idem v "rawData"

theorem foldl_congr_fn {α β : Type} (l : List β) (f g : α → β → α)
    (h : ∀ a b, b ∈ l → f a b = g a b) : ∀ a : α, l.foldl f a = l.foldl g a := by
  induction l with
  | nil => intro a; rfl
  | cons x l ih =>
    intro a
    rw [List.foldl_cons, List.foldl_cons, h a x (List.mem_cons_self _ _)]
    exact ih (fun a b hb => h a b (List.mem_cons_of_mem _ hb)) _

theorem elementPropertyKeys_itemAfterCIN (item : JVal) :
    elementPropertyKeys (itemAfterCIN item) = elementPropertyKeys item := by
  rw [elementPropertyKeys, elementPropertyKeys, keys_itemAfterCIN]
  apply List.filter_congr
  intro k _
  rw [get_itemAfterCIN, truthy_mutateIfElement, get_mutateIfElement_ne _ _ (by decide)]

theorem elementsObj_itemAfterCIN (item : JVal) :
    elementsObj (itemAfterCIN item) = elementsObj item := by
  rw [elementsObj, elementsObj, elementPropertyKeys_itemAfterCIN]
  congr 1
  apply foldl_congr_fn
  intro acc k hk
  have hp : ((item.get k).truthy && ((item.get k).get "type").truthy) = true :=
    (List.mem_filter.mp hk).2
  rw [get_itemAfterCIN, mutateIfElement, if_pos hp, normalize_mutateElement]

theorem nodeDataOf_itemAfterCIN (item : JVal) :
    nodeDataOf (itemAfterCIN item) = nodeDataOf item := by
  rw [nodeDataOf, nodeDataOf, get_itemAfterCIN, mutateIfElement_idem, elementsObj_itemAfterCIN]

theorem createItemNode_itemAfterCIN (cid : JVal → String) (cnid : String → String)
    (item : JVal) :
    createItemNode cid cnid (itemAfterCIN item) = createItemNode cid cnid item := by
  simp only [createItemNode]
  rw [nodeDataOf_itemAfterCIN]

theorem mem_nodeDataOf_fields (item : JVal) (p : String × JVal)
    (hp : p ∈ objFields (nodeDataOf item)) : p.1 = "system" ∨ p.1 = "elements" := by
  have h := mem_keys_jsonRTObj
    [("system", mutateIfElement (item.get "system")), ("elements", elementsObj item)] p hp
  simpa using h

theorem createItemNode_get_id (cid : JVal → String) (cnid : String → String) (item : JVal) :
    (createItemNode cid cnid item).get "id" =
      .str (cnid (getNodeIdValue (nodeDataOf item))) := by
  simp only [createItemNode]
  rw [get_obj_append _ _ _ (fun p hp => by
    rcases mem_nodeDataOf_fields item p hp with h | h <;> simp [h])]
  rfl

theorem createItemNode_get_internal (cid : JVal → String) (cnid : String → String)
    (item : JVal) :
    (createItemNode cid cnid item).get "internal" = .obj
      [("type", .str (getGraphTypeName (jstr (((nodeDataOf item).get "system").get "type")))),
       ("mediaType", .str "text/html"),
       ("contentDigest", .str (cid (nodeDataOf item)))] := by
  simp only [createItemNode]
  rw [get_obj_append _ _ _ (fun p hp => by
    rcases mem_nodeDataOf_fields item p hp with h | h <;> simp [h])]
  rfl

theorem contentDigestOf_createItemNode (cid : JVal → String) (cnid : String → String)
    (item : JVal) :
    contentDigestOf (createItemNode cid cnid item) = .str (cid (nodeDataOf item)) := by
  rw [contentDigestOf, createItemNode_get_internal]
  rfl

theorem get_jsonRTObj_of_forall (l : List (String × JVal)) (k : String)
    (h : ∀ p ∈ l, p.1 ≠ k) : (JVal.obj (jsonRTObj l)).get k = .undefined := by
  induction l with
  | nil => rfl
  | cons a l ih =>
    obtain ⟨ka, va⟩ := a
    rw [jsonRTObj]
    by_cases hu : isUndefined (jsonRT va) = true
    · rw [if_pos hu]
      exact ih (fun p hp => h p (List.mem_cons_of_mem _ hp))
    · rw [if_neg hu, get_obj_cons]
      have hka : (ka == k) = false := by
        simpa using h (ka, va) (List.mem_cons_self _ _)
      simp only [hka]
      simp only [Bool.false_eq_true, if_false]
      exact ih (fun p hp => h p (List.mem_cons_of_mem _ hp))

theorem nodeDataOf_get_absent (item : JVal) (k : String)
    (h1 : k ≠ "system") (h2 : k ≠ "elements") : (nodeDataOf item).get k = .undefined := by
  rw [nodeDataOf]
  show (JVal.obj (jsonRTObj _)).get k = .undefined
  apply get_jsonRTObj_of_forall
  intro p hp
  rcases List.mem_cons.mp hp with hh | hh
  · rw [hh]
    exact Ne.symm h1
  · rcases List.mem_cons.mp hh with hh2 | hh2
    · rw [hh2]
      exact Ne.symm h2
    · exact absurd hh2 (List.not_mem_nil p)

theorem nodeDataOf_get_system (item : JVal) (gs : List (String × JVal))
    (hgs : mutateIfElement (item.get "system") = .obj gs) :
    (nodeDataOf item).get "system" = jsonRT (mutateIfElement (item.get "system")) := by
  have hu0 : isUndefined (jsonRT ((JVal.obj [("system", mutateIfElement (item.get "system")),
      ("elements", elementsObj item)]).get "system")) = false := by
    rw [show (JVal.obj [("system", mutateIfElement (item.get "system")),
      ("elements", elementsObj item)]).get "system" = mutateIfElement (item.get "system")
      from rfl, hgs]
    rfl
  rw [nodeDataOf]
  show (JVal.obj (jsonRTObj _)).get "system" = _
  exact jsonRT_obj_get _ _ hu0

theorem nodeDataOf_system_get (item : JVal) (k : String) (s : String)
    (hk : k ≠ "rawData") (h : (item.get "system").get k = .str s) :
    ((nodeDataOf item).get "system").get k = .str s := by
  have hm : (mutateIfElement (item.get "system")).get k = .str s := by
    rw [get_mutateIfElement_ne _ _ hk, h]
  obtain ⟨gs, hgs⟩ := exists_obj_of_get_ne_undefined _ k
    (by rw [hm]; exact fun hh => JVal.noConfusion hh)
  have hgk : (JVal.obj gs).get k = .str s := by rw [← hgs]; exact hm
  have hu : isUndefined (jsonRT ((JVal.obj gs).get k)) = false := by rw [hgk]; rfl
  rw [nodeDataOf_get_system item gs hgs, hgs]
  show (JVal.obj (jsonRTObj gs)).get k = .str s
  rw [jsonRT_obj_get gs k hu, hgk]
  rfl

theorem getNodeIdValue_nodeDataOf (item : JVal) (t i : String)
    (ht : (item.get "system").get "type" = .str t)
    (hi : (item.get "system").get "id" = .str i) :
    getNodeIdValue (nodeDataOf item) = paramCase t ++ "-" ++ i := by
  rw [getNodeIdValue, nodeDataOf_system_get item "type" t (by decide) ht,
      nodeDataOf_system_get item "id" i (by decide) hi]
  rfl

/-! ### Claim theorems -/

/-- C1: for every content item whose system record carries string `type`
and `id` fields, the identity key used for node identity is the kebab-case
of the type codename, followed by a dash, followed by the item id; the key
is a pure function of (type codename, item id), so any two items agreeing
on those two fields receive the same identity key on every run. -/
theorem c1_node_identity_key (cid : JVal → String) (cnid : String → String)
    (item item2 : JVal) (t i : String)
    (ht : (item.get "system").get "type" = .str t)
    (hi : (item.get "system").get "id" = .str i)
    (ht2 : (item2.get "system").get "type" = .str t)
    (hi2 : (item2.get "system").get "id" = .str i) :
    (createItemNode cid cnid item).get "id" = .str (cnid (paramCase t ++ "-" ++ i))
    ∧ getNodeIdValue (nodeDataOf item) = paramCase t ++ "-" ++ i
    ∧ getNodeIdValue (nodeDataOf item) = getNodeIdValue (nodeDataOf item2) := by
  refine ⟨?_, getNodeIdValue_nodeDataOf item t i ht hi, ?_⟩
  · rw [createItemNode_get_id, getNodeIdValue_nodeDataOf item t i ht hi]
  · rw [getNodeIdValue_nodeDataOf item t i ht hi, getNodeIdValue_nodeDataOf item2 t i ht2 hi2]

theorem c1_node_identity_key_witness :
    (createItemNode digestFn nodeIdFn testItem).get "id" =
      .str (nodeIdFn (paramCase "blog_post" ++ "-" ++ "123"))
    ∧ getNodeIdValue (nodeDataOf testItem) = paramCase "blog_post" ++ "-" ++ "123"
    ∧ getNodeIdValue (nodeDataOf testItem) = getNodeIdValue (nodeDataOf testItem) :=
  c1_node_identity_key digestFn nodeIdFn testItem testItem "blog_post" "123" rfl rfl rfl rfl

/-- C2: for every content type whose camel-cased element codenames do not
collide, Type Projection produces exactly two declarations: an elements
object type named KontentItem + PascalCase(codename) + Elements mapping
camelCase(element codename) to Kontent + PascalCase(kind) + Element for
every element, and an item object type named KontentItem +
PascalCase(codename) with exactly the two fields system :
KontentItemSystem! and elements : the generated elements type,
implementing Node and KontentItem; the blog_post example instantiates it. -/
theorem c2_type_projection_decls (ct : ContentType)
    (hnd : (ct.elements.map (fun e => getGraphFieldName e.codename)).Nodup) :
    createTypeDef ct =
      [{ name := getGraphTypeName ct.system.codename ++ "Elements"
         fields := ct.elements.map
           (fun e => (getGraphFieldName e.codename, getElementValueType e.type))
         interfaces := []
         infer := false },
       { name := getGraphTypeName ct.system.codename
         fields := [("system", "KontentItemSystem!"),
                    ("elements", getGraphTypeName ct.system.codename ++ "Elements")]
         interfaces := ["Node", "KontentItem"]
         infer := false }] := by
  have h := foldl_setField (fun e : ElementDef => getGraphFieldName e.codename)
    (fun e : ElementDef => getElementValueType e.type) ct.elements [] (by simpa using hnd)
  simp only [List.nil_append] at h
  simp only [createTypeDef]
  rw [h]

theorem c2_type_projection_decls_witness :
    createTypeDef blogPostType =
      [{ name := "KontentItemBlogPostElements"
         fields := [("title", "KontentTextElement")]
         interfaces := []
         infer := false },
       { name := "KontentItemBlogPost"
         fields := [("system", "KontentItemSystem!"),
                    ("elements", "KontentItemBlogPostElements")]
         interfaces := ["Node", "KontentItem"]
         infer := false }] := by
  rw [c2_type_projection_decls blogPostType (by decide)]
  rfl

/-- C3: merging a root item list [A, B] with a linked-item list [B2, C],
where B and B2 share their system codename and the other codenames are
pairwise distinct, yields exactly [A, B, C]: one node per item, no
duplicate for B, and B taken from the root list occurrence; the created
nodes are exactly those of A, B and C in that order. -/
theorem c3_union_dedup (cid : JVal → String) (cnid : String → String)
    (A B B2 C : JVal) (a b c : String)
    (hA : itemUnionKey A = .str a) (hB : itemUnionKey B = .str b)
    (hB2 : itemUnionKey B2 = .str b) (hC : itemUnionKey C = .str c)
    (hab : a ≠ b) (hac : a ≠ c) (hbc : b ≠ c) :
    unionBySystemCodename [A, B] [B2, C] = [A, B, C]
    ∧ nodesCreated cid cnid [A, B] [B2, C] =
        [createItemNode cid cnid A, createItemNode cid cnid B, createItemNode cid cnid C] := by
  have hu : unionBySystemCodename [A, B] [B2, C] = [A, B, C] := by
    show uniqByKey itemUnionKey [] (A :: B :: B2 :: C :: []) = _
    rw [uniqByKey]
    rw [if_neg (by simp)]
    rw [uniqByKey]
    rw [if_neg (by simp [hA, hB, JVal.beq, hab])]
    rw [uniqByKey]
    rw [if_pos (by simp [hA, hB, hB2, JVal.beq])]
    rw [uniqByKey]
    rw [if_neg (by simp [hA, hB, hC, JVal.beq]; exact ⟨hbc, hac⟩)]
    rw [uniqByKey]
  exact ⟨hu, by rw [nodesCreated, hu]; rfl⟩

theorem c3_union_dedup_witness :
    unionBySystemCodename [mkTestItem "a", mkTestItem "b"] [mkTestItem "b", mkTestItem "c"] =
      [mkTestItem "a", mkTestItem "b", mkTestItem "c"]
    ∧ nodesCreated digestFn nodeIdFn [mkTestItem "a", mkTestItem "b"]
        [mkTestItem "b", mkTestItem "c"] =
      [createItemNode digestFn nodeIdFn (mkTestItem "a"),
       createItemNode digestFn nodeIdFn (mkTestItem "b"),
       createItemNode digestFn nodeIdFn (mkTestItem "c")] :=
  c3_union_dedup digestFn nodeIdFn (mkTestItem "a") (mkTestItem "b") (mkTestItem "b")
    (mkTestItem "c") "a" "b" "c" rfl rfl rfl rfl (by decide) (by decide) (by decide)

/-- C4: for every rich_text element value carrying value "<p>hi</p>", no
images, no links and linked item codenames ["c1"], normalization yields an
element value of kind rich_text with exactly the fields name, type, value,
images, links and linkedItems (the linked item codenames), and no residual
raw-payload field such as rawData. -/
theorem c4_rich_text_normalization (ev : JVal)
    (hty : ev.get "type" = .str "rich_text")
    (hval : ev.get "value" = .str "<p>hi</p>")
    (himg : ev.get "images" = .arr [])
    (hlnk : ev.get "links" = .arr [])
    (hlic : ev.get "linkedItemCodenames" = .arr [.str "c1"]) :
    normalizeElementValue ev =
      .obj [("images", .arr []), ("linkedItems", .arr [.str "c1"]), ("links", .arr []),
            ("name", ev.get "name"), ("type", .str "rich_text"),
            ("value", .str "<p>hi</p>")] := by
  rw [normalizeElementValue]
  have h1 : isType ev "modular_content" = false := by simp [isType, hty]
  have h2 : isType ev "rich_text" = true := by simp [isType, hty]
  rw [if_neg (by simp [h1]), if_pos h2, hty, hval, himg, hlnk, hlic]
  rfl

theorem c4_rich_text_normalization_witness :
    normalizeElementValue (.obj [("name", .str "Body"), ("type", .str "rich_text"),
      ("value", .str "<p>hi</p>"), ("images", .arr []), ("links", .arr []),
      ("linkedItemCodenames", .arr [.str "c1"]), ("rawData", .obj [])]) =
      .obj [("images", .arr []), ("linkedItems", .arr [.str "c1"]), ("links", .arr []),
            ("name", (JVal.obj [("name", .str "Body"), ("type", .str "rich_text"),
              ("value", .str "<p>hi</p>"), ("images", .arr []), ("links", .arr []),
              ("linkedItemCodenames", .arr [.str "c1"]), ("rawData", .obj [])]).get "name"),
            ("type", .str "rich_text"), ("value", .str "<p>hi</p>")] :=
  c4_rich_text_normalization _ rfl rfl rfl rfl rfl

/-- C5: the argument handed to the host's digest callback is the
canonicalized nodeData built from the item's system record and elements
only: it is the same whatever the host's id-generation callback is, it is
identical for two items agreeing on system and elements, and it contains
no id, parent, children or internal field. -/
theorem c5_fingerprint_content_only (cid : JVal → String) (cnid cnid2 : String → String)
    (item item2 : JVal)
    (hsys : item.get "system" = item2.get "system")
    (helts : elementsObj item = elementsObj item2) :
    contentDigestOf (createItemNode cid cnid item) = .str (cid (nodeDataOf item))
    ∧ contentDigestOf (createItemNode cid cnid2 item2) = .str (cid (nodeDataOf item))
    ∧ (nodeDataOf item).get "id" = .undefined
    ∧ (nodeDataOf item).get "parent" = .undefined
    ∧ (nodeDataOf item).get "children" = .undefined
    ∧ (nodeDataOf item).get "internal" = .undefined := by
  have hnd : nodeDataOf item2 = nodeDataOf item := by
    rw [nodeDataOf, nodeDataOf, hsys, helts]
  refine ⟨contentDigestOf_createItemNode cid cnid item, ?_, ?_, ?_, ?_, ?_⟩
  · rw [contentDigestOf_createItemNode cid cnid2 item2, hnd]
  all_goals exact nodeDataOf_get_absent item _ (by decide) (by decide)

theorem c5_fingerprint_content_only_witness :
    contentDigestOf (createItemNode digestFn nodeIdFn testItem) =
      .str (digestFn (nodeDataOf testItem))
    ∧ contentDigestOf (createItemNode digestFn nodeIdFn2 testItem) =
      .str (digestFn (nodeDataOf testItem))
    ∧ (nodeDataOf testItem).get "id" = .undefined
    ∧ (nodeDataOf testItem).get "parent" = .undefined
    ∧ (nodeDataOf testItem).get "children" = .undefined
    ∧ (nodeDataOf testItem).get "internal" = .undefined :=
  c5_fingerprint_content_only digestFn nodeIdFn nodeIdFn2 testItem testItem rfl rfl

/-- C6: the element-kind to value-type mapping is total over arbitrary
kind strings — any kind, also one outside the nine-kind catalog, gets the
concrete name Kontent + PascalCase(kind) + Element, and Type Projection
still produces its two declarations; in particular new_kind_v2 yields
KontentNewKindV2Element. -/
theorem c6_unknown_kind_value_type :
    (∀ kind : String, getElementValueType kind = "Kontent" ++ pascalCase kind ++ "Element")
    ∧ getElementValueType "new_kind_v2" = "KontentNewKindV2Element"
    ∧ createTypeDef unknownKindType =
        [{ name := "KontentItemArticleElements"
           fields := [("teaser", "KontentNewKindV2Element")]
           interfaces := []
           infer := false },
         { name := "KontentItemArticle"
           fields := [("system", "KontentItemSystem!"),
                      ("elements", "KontentItemArticleElements")]
           interfaces := ["Node", "KontentItem"]
           infer := false }] :=
  ⟨fun _ => rfl, by decide, by decide⟩

/-- C7 counterexample: on a representative item the System metadata record
is NOT excluded from the elements mapping — `system` itself carries a
truthy `type` property (the content type codename), so the key filter of
`createItemNode` admits it and the elements mapping contains a `system`
entry holding the full system record. -/
theorem c7_system_in_elements_cex :
    (elementsObj testItem).get "system" = testSystem
    ∧ "system" ∈ (elementsObj testItem).keys
    ∧ (elementsObj testItem).get "system" ≠ .undefined := by
  refine ⟨rfl, by decide, fun h => ?_⟩
  have h2 : testSystem = JVal.undefined := by
    rw [show (elementsObj testItem).get "system" = testSystem from rfl] at h
    exact h
  exact absurd h2 (by rw [testSystem]; exact fun hh => JVal.noConfusion hh)

/-- C7 amended: the elements mapping of an emitted node contains exactly
the item's properties whose value is truthy and carries a truthy `type`
property — not only genuine element values: the System record itself
passes this filter because its `type` field holds the content type
codename, so it is included rather than excluded.  Under non-colliding
camel-cased keys each admitted property k is mapped at camelCase(k) to its
normalized value. -/
theorem c7_elements_filter_amended (fs : List (String × JVal))
    (hnd : ((elementPropertyKeys (.obj fs)).map getGraphFieldName).Nodup) :
    elementsObj (.obj fs) =
      .obj ((elementPropertyKeys (.obj fs)).map
        (fun k => (getGraphFieldName k, normalizeElementValue ((JVal.obj fs).get k))))
    ∧ (∀ k : String, k ∈ elementPropertyKeys (.obj fs) ↔
        (k ∈ (JVal.obj fs).keys ∧ ((JVal.obj fs).get k).truthy = true ∧
         (((JVal.obj fs).get k).get "type").truthy = true)) := by
  constructor
  · rw [elementsObj]
    congr 1
    have h := foldl_setField getGraphFieldName
      (fun k => normalizeElementValue ((JVal.obj fs).get k))
      (elementPropertyKeys (.obj fs)) [] (by simpa using hnd)
    simpa using h
  · intro k
    rw [elementPropertyKeys]
    simp [List.mem_filter]

theorem c7_elements_filter_amended_witness :
    elementsObj (.obj [("system", testSystem), ("title", testTitle)]) =
      .obj ((elementPropertyKeys (.obj [("system", testSystem), ("title", testTitle)])).map
        (fun k => (getGraphFieldName k,
          normalizeElementValue ((JVal.obj [("system", testSystem), ("title", testTitle)]).get k)))) :=
  (c7_elements_filter_amended [("system", testSystem), ("title", testTitle)] (by decide)).1

/-- C8 counterexample: `createItemNode` does mutate its input item — for
an element of a kind other than modular_content and rich_text the
`delete fieldValue.rawData` statement acts on the input's element object
itself, so the text element of this item loses its rawData field. -/
theorem c8_input_mutation_cex :
    ((itemAfterCIN rawDataItem).get "title").get "rawData" = .undefined
    ∧ ((rawDataItem.get "title").get "rawData") = .obj []
    ∧ itemAfterCIN rawDataItem ≠ rawDataItem := by
  refine ⟨rfl, rfl, fun h => ?_⟩
  have h4 : ((itemAfterCIN rawDataItem).get "title").get "rawData" =
      ((rawDataItem.get "title").get "rawData") := by rw [h]
  rw [show ((itemAfterCIN rawDataItem).get "title").get "rawData" = JVal.undefined from rfl,
      show ((rawDataItem.get "title").get "rawData") = JVal.obj [] from rfl] at h4
  exact JVal.noConfusion h4

/-- C8 amended: the emitted node is a pure function of the input item's
value and is unaffected by the in-place mutation — re-running
`createItemNode` on the mutated item returns the identical node — but the
input item itself is mutated: the rawData field is deleted from every
element property whose kind is neither modular_content nor rich_text,
while properties of those two kinds are left untouched. -/
theorem c8_mutation_output_invariant (cid : JVal → String) (cnid : String → String)
    (item : JVal) :
    createItemNode cid cnid (itemAfterCIN item) = createItemNode cid cnid item
    ∧ (∀ k : String,
        (isType (item.get k) "modular_content" || isType (item.get k) "rich_text") = true →
        (itemAfterCIN item).get k = item.get k) := by
  refine ⟨createItemNode_itemAfterCIN cid cnid item, fun k hk => ?_⟩
  rw [get_itemAfterCIN, mutateIfElement]
  split_ifs with h1
  · rw [mutateElement]
    rcases Bool.or_eq_true_iff.mp hk with h | h
    · rw [if_pos h]
    · by_cases hm : isType (item.get k) "modular_content" = true
      · rw [if_pos hm]
      · rw [if_neg hm, if_pos h]
  · rfl

theorem c8_mutation_output_invariant_witness :
    createItemNode digestFn nodeIdFn (itemAfterCIN rawDataItem) =
      createItemNode digestFn nodeIdFn rawDataItem :=
  (c8_mutation_output_invariant digestFn nodeIdFn rawDataItem).1

/-- C9: in every run the two schema registration calls precede every node
creation call in the host call trace of `sourceNodes` — whenever position
i holds a type-registration call and position j holds a node-create call,
i comes strictly before j. -/
theorem c9_types_before_nodes (cid : JVal → String) (cnid : String → String)
    (types : List ContentType) (items linkedItems : List JVal) (i j : Nat)
    (hi : i < (sourceNodesTrace cid cnid types items linkedItems).length)
    (hj : j < (sourceNodesTrace cid cnid types items linkedItems).length)
    (hti : ((sourceNodesTrace cid cnid types items linkedItems).get ⟨i, hi⟩).isCreateTypes
      = true)
    (hnj : ((sourceNodesTrace cid cnid types items linkedItems).get ⟨j, hj⟩).isCreateNode
      = true) :
    i < j := by
  have hi2 : i < 2 := by
    by_contra hc
    push_neg at hc
    obtain ⟨i2, rfl⟩ : ∃ i2, i = i2 + 2 := ⟨i - 2, by omega⟩
    simp only [sourceNodesTrace] at hti
    simp only [List.get_eq_getElem, List.getElem_cons_succ] at hti
    rw [List.getElem_map] at hti
    exact absurd hti (by simp [HostCall.isCreateTypes])
  have hj2 : 2 ≤ j := by
    by_contra hc
    push_neg at hc
    interval_cases j
    · simp only [sourceNodesTrace] at hnj
      simp [HostCall.isCreateNode] at hnj
    · simp only [sourceNodesTrace] at hnj
      simp [HostCall.isCreateNode] at hnj
  omega

theorem c9_types_before_nodes_witness : (0 : Nat) < 2 :=
  c9_types_before_nodes digestFn nodeIdFn [blogPostType] [testItem] [] 0 2
    (by decide) (by decide) rfl rfl

/-- C10: the nodeData of every item is canonicalized through the JSON
round trip before identity and fingerprint are computed — the node id is
generated from the round-tripped nodeData — and the round trip leaves no
`undefined` anywhere in system or elements: a sub-field that was
undefined (here the linkedItems of a rich_text element with no
linkedItemCodenames, present as an undefined-valued field before the
round trip) is absent from the emitted node rather than present as null,
and every remaining field value is JSON-representable. -/
theorem c10_json_canonicalization :
    (∀ item : JVal, noUndefined (nodeDataOf item) = true)
    ∧ (∀ (cid : JVal → String) (cnid : String → String) (item : JVal),
        (createItemNode cid cnid item).get "id" =
          .str (cnid (getNodeIdValue (nodeDataOf item))))
    ∧ "linkedItems" ∈ (normalizeElementValue richTextNoLinked).keys
    ∧ (normalizeElementValue richTextNoLinked).get "linkedItems" = .undefined
    ∧ "linkedItems" ∉ (((nodeDataOf richTextItem).get "elements").get "body").keys
    ∧ (((nodeDataOf richTextItem).get "elements").get "body").get "links" = .arr []
    ∧ (((nodeDataOf richTextItem).get "elements").get "body").get "linkedItems" = .undefined := by
  refine ⟨fun item => ?_, createItemNode_get_id, by decide, rfl, by decide, rfl, rfl⟩
  rw [nodeDataOf]
  show noUndefinedObj (jsonRTObj _) = true
  exact jsonRTObj_noUndefined _
